import Mathlib

/-!
# Verification of the LXD image service and container-copy coordinator

A shallow embedding of the image handling code (`src/lxd/images.go`, the
divergent variant `src/unnamed/part_000`) and the container-copy client
(`src/lxc/copy.go`), with theorems settling the specification claims.

File contents are modelled as `List Nat` (byte values), database tables as
lists of row structures, the operations registry as a list of operation
records, and the collaborating daemons of the copy client as an environment
of call oracles together with an explicit trace of issued calls.
-/

set_option linter.all false

/-! ## Association-list helpers (Go string maps) -/

/-- Read a key from a Go `map[string]string` modelled as an association list
(first binding wins, mirroring that Go maps have at most one binding). -/
def getKey (m : List (String × String)) (k : String) : Option String :=
  (m.find? (fun p => p.1 == k)).map (fun p => p.2)

/-- Write a key into a Go `map[string]string` modelled as an association list:
replace the first binding of the key, or append a fresh one. -/
def setKey : List (String × String) → String → String → List (String × String)
  | [], k, v => [(k, v)]
  | p :: rest, k, v => if p.1 == k then (k, v) :: rest else p :: setKey rest k v

/-! ## Compression sniffer (`detectCompression`)

The Go code allocates a zero-filled 263-byte buffer and issues a single
`f.Read(header)`.  For a regular file the read returns `min 263 size` bytes
and fails (with `io.EOF`) only when the file is empty; the remainder of the
buffer keeps its zero fill.  `headerBytes` reproduces that buffer. -/

/-- The 263-byte header buffer: the first bytes of the file, zero-padded. -/
def headerBytes (content : List Nat) : List Nat :=
  content.take 263 ++ List.replicate (263 - content.length) 0

/-- Byte `i` of the header buffer (the Go code only indexes below 263). -/
def headerByte (content : List Nat) (i : Nat) : Nat :=
  ((headerBytes content).get? i).getD 0

inductive DetectError where
  /-- `f.Read` returned an error (for a regular file: the file was empty). -/
  | readError : DetectError
  /-- the `default:` arm: `fmt.Errorf("Unsupported compression.")`. -/
  | unsupportedCompression : DetectError
deriving DecidableEq, Repr

/-- `bytes.Equal(header[0:2], {'B', 'Z'})`: `B` = 0x42, `Z` = 0x5A. -/
def bz2Magic (content : List Nat) : Prop :=
  headerByte content 0 = 0x42 ∧ headerByte content 1 = 0x5A

/-- `bytes.Equal(header[0:2], {0x1f, 0x8b})`. -/
def gzMagic (content : List Nat) : Prop :=
  headerByte content 0 = 0x1f ∧ headerByte content 1 = 0x8b

/-- `bytes.Equal(header[1:5], {'7', 'z', 'X', 'Z'})`: `7` = 0x37, `z` = 0x7A,
`X` = 0x58, `Z` = 0x5A.  Byte 5 of the header is NOT examined. -/
def sevenZXZMagic (content : List Nat) : Prop :=
  headerByte content 1 = 0x37 ∧ headerByte content 2 = 0x7A ∧
  headerByte content 3 = 0x58 ∧ headerByte content 4 = 0x5A

/-- `bytes.Equal(header[257:262], {'u', 's', 't', 'a', 'r'})`: `u` = 0x75,
`s` = 0x73, `t` = 0x74, `a` = 0x61, `r` = 0x72. -/
def tarMagic (content : List Nat) : Prop :=
  headerByte content 257 = 0x75 ∧ headerByte content 258 = 0x73 ∧
  headerByte content 259 = 0x74 ∧ headerByte content 260 = 0x61 ∧
  headerByte content 261 = 0x72

instance (content : List Nat) : Decidable (bz2Magic content) := by
  unfold bz2Magic; infer_instance

instance (content : List Nat) : Decidable (gzMagic content) := by
  unfold gzMagic; infer_instance

instance (content : List Nat) : Decidable (sevenZXZMagic content) := by
  unfold sevenZXZMagic; infer_instance

instance (content : List Nat) : Decidable (tarMagic content) := by
  unfold tarMagic; infer_instance

/-- `detectCompression` from `src/lxd/images.go` lines 34-68.  The result is
the tar argument list and the canonical extension. -/
def detectCompression (content : List Nat) : Except DetectError (List String × String) :=
  if content = [] then .error .readError
  else if bz2Magic content then .ok (["--jxf"], ".tar.bz2")
  else if gzMagic content then .ok (["-zxf"], ".tar.gz")
  else if sevenZXZMagic content ∧ headerByte content 0 = 0xFD then
    .ok (["-Jxf"], ".tar.xz")
  else if sevenZXZMagic content ∧ headerByte content 0 ≠ 0xFD then
    .ok (["--lzma", "-xf"], ".tar.lzma")
  else if tarMagic content then .ok (["-xf"], ".tar")
  else .error .unsupportedCompression

namespace Part000

/-- `detectCompression` from `src/unnamed/part_000` lines 40-72.  The result is
the `COMPRESSION_*` constant and the extension.  This variant never looks at
the error of `f.Read`, so even an empty file is classified against the
all-zero buffer (reaching the `default:` arm). -/
def detectCompression (content : List Nat) : Except DetectError (Int × String) :=
  if bz2Magic content then .ok (2, ".tar.bz2")
  else if gzMagic content then .ok (1, ".tar.gz")
  else if sevenZXZMagic content ∧ headerByte content 0 = 0xFD then .ok (4, ".tar.xz")
  else if sevenZXZMagic content ∧ headerByte content 0 ≠ 0xFD then .ok (3, ".tar.lzma")
  else if tarMagic content then .ok (0, ".tar")
  else .error .unsupportedCompression

end Part000

/-! ## Property-header parsing (`url.ParseQuery` and the merge loop)

`getImgPostInfo` (`src/lxd/images.go` lines 368-378) seeds the property map
with the metadata.yaml properties and then, for every `X-LXD-properties`
header line `ph`, parses `ph` with `url.ParseQuery` and executes
`info.Properties[pkey] = pval[0]` for every key of the parsed values.
`url.ParseQuery` keeps every value of a duplicated key, in order of
appearance, so `pval[0]` is the FIRST value of the key in that header line.
The model of `ParseQuery` is restricted to queries without percent-escapes,
plus signs or semicolons, which is all the claims exercise. -/

/-- Split a character list on a separator character (the semantics of
`strings.Split` for a one-character separator). -/
def splitOnChar (c : Char) : List Char → List (List Char)
  | [] => [[]]
  | x :: xs =>
    let r := splitOnChar c xs
    if x = c then [] :: r
    else
      match r with
      | [] => [[x]]
      | y :: ys => (x :: y) :: ys

/-- Split a character list at the first `=` (the semantics of
`strings.SplitN(part, "=", 2)`): the part before it, and the part after it
when one exists. -/
def splitFirstEq : List Char → List Char × Option (List Char)
  | [] => ([], none)
  | x :: xs =>
    if x = '=' then ([], some xs)
    else
      let (k, v) := splitFirstEq xs
      (x :: k, v)

/-- The key=value pairs of a query string, in order of appearance
(`url.ParseQuery` restricted as described above): split on `&`, drop empty
segments, split each segment at the first `=` (no `=` means an empty
value). -/
def parseQueryPairs (query : String) : List (String × String) :=
  ((splitOnChar '&' query.data).filter (fun part => !part.isEmpty)).map (fun part =>
    let kv := splitFirstEq part
    (String.mk kv.1, String.mk (kv.2.getD [])))

/-- The ordered value list `p[k]` of `url.Values` for key `k`. -/
def queryValuesFor (query k : String) : List String :=
  ((parseQueryPairs query).filter (fun p => p.1 == k)).map (fun p => p.2)

/-- Whether a header line contains the key `k` at all (some pair of the
parsed query has first component `k`). -/
def headerHasKey (ph k : String) : Bool :=
  (parseQueryPairs ph).any (fun p => p.1 == k)

/-- One iteration of the header loop of `getImgPostInfo`: for each key of the
parsed header set `info.Properties[pkey] = pval[0]`.  (Iterating over the
pairs instead of the deduplicated key set assigns the same value the same
number of extra times, so the resulting map is identical and independent of
Go map iteration order.) -/
def applyPropHeader (props : List (String × String)) (ph : String) :
    List (String × String) :=
  (parseQueryPairs ph).foldl
    (fun acc p => setKey acc p.1 (((queryValuesFor ph p.1).head?).getD "")) props

/-- The full merge of `getImgPostInfo`: start from the metadata.yaml
properties, then fold the `X-LXD-properties` header lines in order. -/
def applyPropHeaders (props : List (String × String)) (headers : List String) :
    List (String × String) :=
  headers.foldl applyPropHeader props

/-! ## The metadata store

The database schema (spec 4.4): `images`, `images_properties`,
`images_aliases`.  Rows are modelled as structures, tables as lists.  The
content files and sidecars under `<var>/images` are modelled as a list of
(path, content) pairs on the same state. -/

structure ImageRow where
  id : Nat
  fingerprint : String
  filename : String
  size : Int
  publicFlag : Nat
  architecture : Nat
  creationDate : Int
  expiryDate : Int
  uploadDate : Int
deriving DecidableEq, Repr

structure PropertyRow where
  imageId : Nat
  rowType : Nat
  key : String
  value : String
deriving DecidableEq, Repr

structure AliasRow where
  id : Nat
  name : String
  imageId : Nat
  description : String
deriving DecidableEq, Repr

structure DBState where
  images : List ImageRow
  imagesProperties : List PropertyRow
  imagesAliases : List AliasRow
  /-- the files under `<var>/images`, as (path, content) pairs -/
  files : List (String × List Nat)
deriving DecidableEq, Repr

/-- `shared.PathExists`. -/
def pathExists (st : DBState) (p : String) : Bool :=
  (st.files.find? (fun f => f.1 == p)).isSome

/-- The content of the file at path `p` (empty when absent). -/
def contentAt (st : DBState) (p : String) : List Nat :=
  ((st.files.find? (fun f => f.1 == p)).map (fun f => f.2)).getD []

/-- Modelled from the spec: `dbImageGet` lives in the database module, which
is not among these sources.  Spec 4.4: `getImage(fingerprint, publicOnly)`
returns the image row, applying `public=1` filtering when `publicOnly` is
set, or NotFound (`none`). -/
def dbImageGet (st : DBState) (fingerprint : String) (publicOnly : Bool) :
    Option ImageRow :=
  st.images.find? (fun r =>
    r.fingerprint == fingerprint && (!publicOnly || r.publicFlag == 1))

/-! ## The cascading delete (`imageDelete`)

The three statements below are the exact SQL strings of
`src/lxd/images.go` lines 800-802 (identically `src/unnamed/part_000` lines
558-560).  They are executed with `tx.Exec`, whose error is discarded
(`_, _ = tx.Exec(...)`).  `parseDeleteStmt` is a little checker for the only
statement shape those lines use: a malformed statement is a SQL syntax
error, so its `Exec` fails and — the error being discarded — changes
nothing. -/

def imagesAliasesDeleteStmt : String := "DELETE FROM images_aliases WHERE image_id=?"

def imagesPropertiesDeleteStmt : String := "DELETE FROM images_properties WHERE image_id?"

def imagesDeleteStmt : String := "DELETE FROM images WHERE id=?"

/-- Accepts exactly `DELETE FROM <table> WHERE <column>=?`, returning the
table and column; anything else is a SQL syntax error (`none`). -/
def parseDeleteStmt (s : String) : Option (String × String) :=
  match (splitOnChar ' ' s.data).map String.mk with
  | ["DELETE", "FROM", tbl, "WHERE", cond] =>
    match cond.data.reverse with
    | '?' :: '=' :: rest => some (tbl, String.mk rest.reverse)
    | _ => none
  | _ => none

/-- `tx.Exec` of a one-parameter DELETE: returns the new state and whether
the statement executed (a malformed statement errors and changes nothing). -/
def execDelete (st : DBState) (stmt : String) (arg : Nat) : DBState × Bool :=
  match parseDeleteStmt stmt with
  | none => (st, false)
  | some (tbl, col) =>
    if tbl == "images_aliases" && col == "image_id" then
      ({ st with imagesAliases := st.imagesAliases.filter (fun a => a.imageId != arg) }, true)
    else if tbl == "images_properties" && col == "image_id" then
      ({ st with imagesProperties := st.imagesProperties.filter (fun p => p.imageId != arg) }, true)
    else if tbl == "images" && col == "id" then
      ({ st with images := st.images.filter (fun i => i.id != arg) }, true)
    else (st, false)

/-- Backend configuration of the daemon: whether `core.lvm_vg_name` is set,
and the backing filesystem of the daemon. -/
structure IngestConfig where
  vgnameIsSet : Bool
  backingFs : String
deriving DecidableEq, Repr

/-- `imageDelete` from `src/lxd/images.go` lines 752-809: remove the content
file, the `.rootfs` sidecar, the LV symlink or btrfs subvolume as the
backend dictates (removal errors are only logged), then run the three
DELETE statements in one transaction, each with its error discarded. -/
def imageDelete (cfg : IngestConfig) (st : DBState) (fingerprint : String) :
    Option DBState :=
  match dbImageGet st fingerprint false with
  | none => none
  | some imgInfo =>
    let fname := "images/" ++ imgInfo.fingerprint
    let st1 := { st with files := st.files.filter (fun f => f.1 != fname) }
    let st2 := { st1 with files := st1.files.filter (fun f => f.1 != fname ++ ".rootfs") }
    let st3 :=
      if cfg.vgnameIsSet then
        { st2 with files := st2.files.filter (fun f => f.1 != fname ++ ".lv") }
      else if cfg.backingFs = "btrfs" then
        { st2 with files := st2.files.filter (fun f => f.1 != fname ++ ".btrfs") }
      else st2
    let (st4, _) := execDelete st3 imagesAliasesDeleteStmt imgInfo.id
    let (st5, _) := execDelete st4 imagesPropertiesDeleteStmt imgInfo.id
    let (st6, _) := execDelete st5 imagesDeleteStmt imgInfo.id
    some st6

example : parseDeleteStmt imagesAliasesDeleteStmt = some ("images_aliases", "image_id") := by rfl
example : parseDeleteStmt imagesPropertiesDeleteStmt = none := by rfl
example : parseDeleteStmt imagesDeleteStmt = some ("images", "id") := by rfl

/-! ## Image lookup (`doImageGet`, `doImagesGet`) -/

structure ImageAlias where
  name : String
  description : String
deriving DecidableEq, Repr

structure ImageInfo where
  fingerprint : String
  filename : String
  properties : List (String × String)
  aliases : List ImageAlias
  publicFlag : Nat
  size : Int
  architecture : Nat
  creationDate : Int
  expiryDate : Int
  uploadDate : Int
deriving DecidableEq, Repr

/-- `doImageGet` from `src/lxd/images.go` lines 811-859 (identically
`src/unnamed/part_000` lines 569-617).  The alias query selects the columns
`(name, description)`, but the scan loop reads `r[0]` into BOTH `name` and
`desc` (`name = r[0].(string); desc = r[0].(string)`), which the `aliasRes`
mapping below reproduces. -/
def doImageGet (st : DBState) (fingerprint : String) (publicOnly : Bool) :
    Option ImageInfo :=
  match dbImageGet st fingerprint publicOnly with
  | none => none
  | some imgInfo =>
    let propResults :=
      (st.imagesProperties.filter (fun p => p.imageId == imgInfo.id)).map
        (fun p => (p.key, p.value))
    let properties := propResults.foldl (fun m kv => setKey m kv.1 kv.2) []
    let aliasResults :=
      (st.imagesAliases.filter (fun a => a.imageId == imgInfo.id)).map
        (fun a => (a.name, a.description))
    let aliases := aliasResults.map (fun r =>
      { name := r.1, description := r.1 : ImageAlias })
    some { fingerprint := imgInfo.fingerprint
           filename := imgInfo.filename
           properties := properties
           aliases := aliases
           publicFlag := imgInfo.publicFlag
           size := imgInfo.size
           architecture := imgInfo.architecture
           creationDate := imgInfo.creationDate
           expiryDate := imgInfo.expiryDate
           uploadDate := imgInfo.uploadDate }

/-- The result of `doImagesGet`: URL strings without recursion, full records
with recursion. -/
inductive ImagesGetResult where
  | urls : List String → ImagesGetResult
  | infos : List ImageInfo → ImagesGetResult
deriving DecidableEq, Repr

/-- `doImagesGet` from `src/lxd/images.go` lines 713-748: select the
fingerprints (restricted to `public=1` rows for untrusted callers), then
either build URLs or fetch each record, skipping records whose fetch
errors. -/
def doImagesGet (st : DBState) (recursion publicOnly : Bool) : ImagesGetResult :=
  let rows := if publicOnly then st.images.filter (fun r => r.publicFlag == 1) else st.images
  let fps := rows.map (fun r => r.fingerprint)
  if !recursion then
    .urls (fps.map (fun name => "/1.0/images/" ++ name))
  else
    .infos (fps.filterMap (fun name => doImageGet st name publicOnly))

/-! ## The secret-gated access (`imageValidSecret`, `imageGet`, `imageExport`) -/

/-- A live record of the operations registry: the optional resource mapping
(`op.Resources`) and the `secret` entry of the metadata, when
`op.MetadataAsMap()` and `GetString("secret")` both succeed. -/
structure OperationRec where
  resources : Option (List (String × List String))
  metadataSecret : Option String
deriving DecidableEq, Repr

/-- `strings.Replace(s, "/", " ", -1)`. -/
def replaceSlashes (s : String) : String :=
  String.mk (s.data.map (fun ch => if ch = '/' then ' ' else ch))

/-- Model of `fmt.Sscanf(toScan, " %s images %s", &v, &fp)`: succeeds with
`(v, fp)` exactly when the whitespace-separated tokens of the input begin
with some token, the literal token `images`, and a further token. -/
def sscanfVersionImages (toScan : String) : Option (String × String) :=
  match ((splitOnChar ' ' toScan.data).filter (fun t => !t.isEmpty)).map String.mk with
  | t1 :: t2 :: t3 :: _ => if t2 == "images" then some (t1, t3) else none
  | _ => none

/-- `imageValidSecret` from `src/lxd/images.go` lines 861-911: scan the live
operations; an operation matches when its `images` resource list contains a
URL whose parsed fingerprint equals the requested one and its metadata
secret equals the presented secret. -/
def imageValidSecret (ops : List OperationRec) (fingerprint secret : String) : Bool :=
  ops.any (fun op =>
    match op.resources with
    | none => false
    | some rs =>
      match (rs.find? (fun p => p.1 == "images")).map (fun p => p.2) with
      | none => false
      | some opImages =>
        let found := opImages.any (fun u =>
          match sscanfVersionImages (replaceSlashes u) with
          | some (_, imgFingerprint) => imgFingerprint == fingerprint
          | none => false)
        if !found then false
        else
          match op.metadataSecret with
          | none => false
          | some opSecret => opSecret == secret)

/-- `imageGet` from `src/lxd/images.go` lines 913-928: untrusted callers are
`public`; a valid secret for the requested fingerprint drops the `public`
restriction. -/
def imageGet (st : DBState) (ops : List OperationRec) (trusted : Bool)
    (fingerprint secret : String) : Option ImageInfo :=
  let publicOnly := !trusted
  let publicOnly :=
    if publicOnly && imageValidSecret ops fingerprint secret then false else publicOnly
  doImageGet st fingerprint publicOnly

structure FileRespEntry where
  identifier : String
  path : String
  filename : String
deriving DecidableEq, Repr

/-- `imageExport` from `src/lxd/images.go` lines 1089-1135: same visibility
rule as `imageGet`; a `.rootfs` sidecar yields a two-part response,
otherwise a single file; an empty stored filename falls back to
`<fingerprint><detected extension>`. -/
def imageExport (st : DBState) (ops : List OperationRec) (trusted : Bool)
    (fingerprint secret : String) : Option (List FileRespEntry) :=
  let publicOnly := !trusted
  let publicOnly :=
    if publicOnly && imageValidSecret ops fingerprint secret then false else publicOnly
  match dbImageGet st fingerprint publicOnly with
  | none => none
  | some imgInfo =>
    let imagePath := "images/" ++ imgInfo.fingerprint
    let rootfsPath := imagePath ++ ".rootfs"
    let filename :=
      if imgInfo.filename = "" then
        match detectCompression (contentAt st imagePath) with
        | .ok (_, ext) => fingerprint ++ ext
        | .error _ => fingerprint ++ ""
      else imgInfo.filename
    if pathExists st rootfsPath then
      some [{ identifier := "metadata", path := imagePath, filename := "meta-" ++ filename },
            { identifier := "rootfs", path := rootfsPath, filename := filename }]
    else
      some [{ identifier := filename, path := imagePath, filename := filename }]

/-! ## Ingestion ordering (duplicate check versus sidecar build)

The two ingestion variants are modelled as step sequences over a trace of
storage/database effects, on the success path of every external tool (tool
failures are not what the ordering claims are about).  The duplicate test
is the DB unique index on `images.fingerprint` (pipeline variant) or the
`shared.PathExists` test on the final image path (inline variant). -/

inductive IngestEvent where
  /-- `createImageLV`: LV allocation, mkfs, mount (LVM backend sidecar work) -/
  | lvCreateEv (fp : String)
  /-- `btrfsMakeSubvol` (btrfs backend sidecar work) -/
  | btrfsSubvolEv (fp : String)
  /-- `untarImage` into the sidecar -/
  | untarEv (fp : String)
  /-- the `INSERT INTO images ...` transaction (`dbInsertImage`) -/
  | dbInsertEv (fp : String)
  /-- promotion of the content file into `<var>/images` -/
  | promoteEv (fp : String)
deriving DecidableEq, Repr

/-- `buildOtherFs` from `src/lxd/images.go` lines 418-442 (success path):
LVM when `core.lvm_vg_name` is set, else a btrfs subvolume plus unpack when
the backing filesystem is btrfs, else nothing. -/
def buildOtherFs (cfg : IngestConfig) (fp : String) : List IngestEvent :=
  if cfg.vgnameIsSet then [.lvCreateEv fp, .untarEv fp]
  else if cfg.backingFs = "btrfs" then [.btrfsSubvolEv fp, .untarEv fp]
  else []

/-- `dbInsertImage` (lines 546-600), collapsed to the fingerprint column.
Modelled from the spec for the schema part: the unique index on
`images.fingerprint` (spec 4.4) makes the INSERT of a present fingerprint
fail and roll back. -/
def dbInsertImage (store : List String) (fp : String) : Except String (List String) :=
  if store.contains fp then .error "UNIQUE constraint failed: images.fingerprint"
  else .ok (store ++ [fp])

/-- `buildImageFromInfo` from `src/lxd/images.go` lines 631-653: build the
backend sidecar FIRST, then run the DB insert, then promote the files out
of the build directory. -/
def buildImageFromInfo (cfg : IngestConfig) (store : List String) (fp : String)
    (size : Int) : Except String (List (String × String) × List String) × List IngestEvent :=
  let evs := buildOtherFs cfg fp
  match dbInsertImage store fp with
  | .error e => (.error e, evs ++ [.dbInsertEv fp])
  | .ok store' =>
    (.ok ([("fingerprint", fp), ("size", toString size)], store'),
     evs ++ [.dbInsertEv fp, .promoteEv fp])

namespace Part000

/-- The post-hash section of the inline `imagesPost`
(`src/unnamed/part_000` lines 193-398): validate `X-LXD-fingerprint`, then
test `shared.PathExists(images/<fp>)` and fail `Image already exists.`,
then rename into place, then do the backend work, then insert.  Source
error text for the mismatch uses an apostrophe (fingerprints don-t match);
it is written without one here. -/
def imagesPostCore (cfg : IngestConfig) (files : List String) (store : List String)
    (fingerprint expectedFingerprint : String) (size : Int) :
    Except String (List (String × String)) × List IngestEvent :=
  if expectedFingerprint ≠ "" ∧ fingerprint ≠ expectedFingerprint then
    (.error "fingerprints do not match", [])
  else if files.contains ("images/" ++ fingerprint) then
    (.error "Image already exists.", [])
  else
    let evs := .promoteEv fingerprint :: buildOtherFs cfg fingerprint
    match dbInsertImage store fingerprint with
    | .error e => (.error e, evs ++ [.dbInsertEv fingerprint])
    | .ok _ =>
      (.ok [("fingerprint", fingerprint), ("size", toString size)],
       evs ++ [.dbInsertEv fingerprint])

end Part000

/-! ## The container-copy coordinator (`src/lxc/copy.go`)

`copyContainer` is modelled as a pure function over an environment of
daemon-call oracles; the returned trace lists the calls it issued, in
order.  Client construction (`lxd.NewClient`) and identifier parsing
(`config.ParseRemoteAndContainer`) live outside these sources, so the
function takes the already-parsed remote/name pairs and client creation is
taken to succeed.  `gettext.Gettext` is the identity.  Source error texts
using apostrophes (you must..., can-t copy...) are written without one. -/

structure ContainerState where
  config : List (String × String)
  profiles : List String
deriving DecidableEq, Repr

/-- The migration-source websocket response: the operation URL and the
`secrets` map when `json.Unmarshal` of the metadata succeeds. -/
structure WSResponse where
  operation : String
  metadataSecrets : Option (List (String × String))
deriving DecidableEq, Repr

/-- Call oracles for the daemons the copy client talks to.  The first
`String` argument is always the remote the call is directed at. -/
structure CopyEnv where
  containerStatus : String → String → Except String ContainerState
  listProfiles : String → Except String (List String)
  getMigrationSourceWS : String → String → Except String WSResponse
  addresses : String → Except String (List String)
  migrateFrom : String → String → String → List (String × String) →
    List (String × String) → List String → String → Except String String
  waitForSuccess : String → String → Except String Unit
  localCopy : String → String → String → List (String × String) →
    List String → Except String String

inductive CopyEvent where
  | containerStatusEv (remote name : String)
  | localCopyEv (remote srcName dstName : String)
  | listProfilesEv (remote : String)
  | getMigrationSourceWSEv (remote name : String)
  | addressesEv (remote : String)
  | migrateFromEv (remote dstName addr wsUrl : String)
  | waitForSuccessEv (remote op : String)
deriving DecidableEq, Repr

/-- Modelled from the spec: `shared.IsSnapshot` is not among these sources;
snapshot identifiers have the form `container/snapshot` (spec 4.8 and the
`SplitN(name, "/", 2)` use in `imgPostContInfo`). -/
def isSnapshot (name : String) : Bool :=
  name.data.contains '/'

/-- `volatile.base_image` lookup (`status.Config["volatile.base_image"]`,
the zero value `""` when absent). -/
def baseImageOf (config : List (String × String)) : String :=
  (getKey config "volatile.base_image").getD ""

/-- The `keepVolatile` stripping: delete every config key with prefix
`volatile` (`strings.HasPrefix(k, "volatile")`). -/
def strippedState (keepVolatile : Bool) (st : ContainerState) : ContainerState :=
  if keepVolatile then st
  else { st with config := st.config.filter (fun p => !("volatile".data.isPrefixOf p.1.data)) }

/-- The websocket URL formed for one address:
`"wss://" + addr + path.Join(operation, "websocket")` (the operation URL
carries no trailing slash). -/
def wssUrl (addr operation : String) : String :=
  "wss://" ++ addr ++ operation ++ "/websocket"

/-- The address loop of `copyContainer` (`src/lxc/copy.go` lines 117-133):
try `MigrateFrom` then `WaitForSuccess` per address, moving on at any
failure; after the loop the Go code returns the `err` variable, which is
the last failure, or `nil` — success — when the loop body never ran. -/
def tryAddresses (env : CopyEnv) (destRemote destName operation : String)
    (secrets config : List (String × String)) (profiles : List String)
    (baseImage : String) :
    List String → Option String → Except String Unit × List CopyEvent
  | [], lastErr =>
    (match lastErr with
     | none => .ok ()
     | some e => .error e, [])
  | addr :: rest, _ =>
    let wsUrl := wssUrl addr operation
    match env.migrateFrom destRemote destName wsUrl secrets config profiles baseImage with
    | .error e =>
      let r := tryAddresses env destRemote destName operation secrets config profiles
        baseImage rest (some e)
      (r.1, .migrateFromEv destRemote destName addr wsUrl :: r.2)
    | .ok op =>
      match env.waitForSuccess destRemote op with
      | .error e =>
        let r := tryAddresses env destRemote destName operation secrets config profiles
          baseImage rest (some e)
        (r.1, .migrateFromEv destRemote destName addr wsUrl ::
              .waitForSuccessEv destRemote op :: r.2)
      | .ok _ =>
        (.ok (), [.migrateFromEv destRemote destName addr wsUrl,
                  .waitForSuccessEv destRemote op])

/-- One `MigrateFrom`-plus-`WaitForSuccess` attempt at one address, as the
loop body performs it. -/
def migrateAttempt (env : CopyEnv) (destRemote destName operation : String)
    (secrets config : List (String × String)) (profiles : List String)
    (baseImage addr : String) : Except String Unit :=
  match env.migrateFrom destRemote destName (wssUrl addr operation) secrets config
      profiles baseImage with
  | .error e => .error e
  | .ok op => env.waitForSuccess destRemote op

/-- The addresses of the `migrateFromEv` events of a trace, in order. -/
def migrateAddrs : List CopyEvent → List String
  | [] => []
  | .migrateFromEv _ _ addr _ :: t => addr :: migrateAddrs t
  | _ :: t => migrateAddrs t

/-- Branch A of `copyContainer` (same remote, lines 75-85): reject equal
names, else issue the local-copy operation and await it. -/
def copySameRemote (env : CopyEnv) (remote sourceName destName : String)
    (st : ContainerState) : Except String Unit × List CopyEvent :=
  if sourceName = destName then
    (.error "cannot copy to the same container name", [])
  else
    match env.localCopy remote sourceName destName st.config st.profiles with
    | .error e => (.error e, [.localCopyEv remote sourceName destName])
    | .ok op =>
      match env.waitForSuccess remote op with
      | .error e =>
        (.error e, [.localCopyEv remote sourceName destName, .waitForSuccessEv remote op])
      | .ok _ =>
        (.ok (), [.localCopyEv remote sourceName destName, .waitForSuccessEv remote op])

/-- Branch B of `copyContainer` (cross remote, lines 86-134): profile-subset
check (`shared.NewStringSet(...).IsSubset`, modelled from the spec as
membership of every source profile in the destination list since
`shared` is not among these sources), migration-source websocket, secrets
unmarshal, address enumeration, then the address loop. -/
def copyCrossRemote (env : CopyEnv) (sourceRemote sourceName destRemote destName : String)
    (st : ContainerState) (baseImage : String) : Except String Unit × List CopyEvent :=
  match env.listProfiles destRemote with
  | .error e => (.error e, [.listProfilesEv destRemote])
  | .ok destProfs =>
    if !(st.profiles.all (fun p => destProfs.contains p)) then
      (.error "not all the profiles from the source exist on the target",
       [.listProfilesEv destRemote])
    else
      match env.getMigrationSourceWS sourceRemote sourceName with
      | .error e =>
        (.error e, [.listProfilesEv destRemote, .getMigrationSourceWSEv sourceRemote sourceName])
      | .ok ws =>
        match ws.metadataSecrets with
        | none =>
          (.error "unmarshal of migration secrets failed",
           [.listProfilesEv destRemote, .getMigrationSourceWSEv sourceRemote sourceName])
        | some secrets =>
          match env.addresses sourceRemote with
          | .error e =>
            (.error e, [.listProfilesEv destRemote,
                        .getMigrationSourceWSEv sourceRemote sourceName,
                        .addressesEv sourceRemote])
          | .ok addrs =>
            let r := tryAddresses env destRemote destName ws.operation secrets st.config
              st.profiles baseImage addrs none
            (r.1, [.listProfilesEv destRemote,
                   .getMigrationSourceWSEv sourceRemote sourceName,
                   .addressesEv sourceRemote] ++ r.2)

/-- `copyContainer` from `src/lxc/copy.go` lines 32-135, over parsed
identifiers: bare destination defaults to the source name; for a
non-snapshot source the container status is read, `volatile.base_image`
extracted and volatile keys stripped unless `keepVolatile`; then branch A
or B by remote equality. -/
def copyContainer (env : CopyEnv) (sourceRemote sourceName destRemote destName0 : String)
    (keepVolatile : Bool) : Except String Unit × List CopyEvent :=
  if sourceName = "" then
    (.error "you must specify a source container name", [])
  else
    let destName := if destName0 = "" then sourceName else destName0
    if isSnapshot sourceName then
      let st : ContainerState := { config := [], profiles := [] }
      if sourceRemote = destRemote then
        copySameRemote env sourceRemote sourceName destName st
      else
        copyCrossRemote env sourceRemote sourceName destRemote destName st ""
    else
      match env.containerStatus sourceRemote sourceName with
      | .error e => (.error e, [.containerStatusEv sourceRemote sourceName])
      | .ok st0 =>
        let baseImage := baseImageOf st0.config
        let st := strippedState keepVolatile st0
        let r :=
          if sourceRemote = destRemote then
            copySameRemote env sourceRemote sourceName destName st
          else
            copyCrossRemote env sourceRemote sourceName destRemote destName st baseImage
        (r.1, .containerStatusEv sourceRemote sourceName :: r.2)

/-! ## Concrete states and environments used by the witnesses -/

def exDeleteDB : DBState :=
  { images := [{ id := 1, fingerprint := "f", filename := "", size := 0, publicFlag := 0,
                 architecture := 0, creationDate := 0, expiryDate := 0, uploadDate := 0 }]
    imagesProperties := [{ imageId := 1, rowType := 0, key := "os", value := "alpine" }]
    imagesAliases := [{ id := 4, name := "alp", imageId := 1, description := "an alias" }]
    files := [("images/f", [0x1f, 0x8b])] }

def exVisDB : DBState :=
  { images := [{ id := 1, fingerprint := "f", filename := "", size := 0, publicFlag := 1,
                 architecture := 0, creationDate := 0, expiryDate := 0, uploadDate := 0 }]
    imagesProperties := []
    imagesAliases := []
    files := [] }

def exVisInfo : ImageInfo :=
  { fingerprint := "f", filename := "", properties := [], aliases := [], publicFlag := 1,
    size := 0, architecture := 0, creationDate := 0, expiryDate := 0, uploadDate := 0 }

def exAliasDB : DBState :=
  { images := [{ id := 1, fingerprint := "f", filename := "", size := 0, publicFlag := 1,
                 architecture := 0, creationDate := 0, expiryDate := 0, uploadDate := 0 }]
    imagesProperties := []
    imagesAliases := [{ id := 5, name := "alp", imageId := 1, description := "stored description" }]
    files := [] }

def exAliasInfo : ImageInfo :=
  { fingerprint := "f", filename := "", properties := [],
    aliases := [{ name := "alp", description := "alp" }], publicFlag := 1,
    size := 0, architecture := 0, creationDate := 0, expiryDate := 0, uploadDate := 0 }

def exStatus : ContainerState :=
  { config := [("volatile.base_image", "abc"), ("limits.cpu", "2")], profiles := ["default"] }

def exWS : WSResponse :=
  { operation := "/1.0/operations/op1", metadataSecrets := some [("control", "s1")] }

def exEnv : CopyEnv :=
  { containerStatus := fun _ _ => .ok exStatus
    listProfiles := fun _ => .ok ["default", "extra"]
    getMigrationSourceWS := fun _ _ => .ok exWS
    addresses := fun _ => .ok ["10.0.0.1", "10.0.0.2"]
    migrateFrom := fun _ _ wsUrl _ _ _ _ =>
      if wsUrl = "wss://10.0.0.1/1.0/operations/op1/websocket" then .error "connect failed"
      else .ok "op2"
    waitForSuccess := fun _ _ => .ok ()
    localCopy := fun _ _ _ _ _ => .ok "oplocal" }

def exEnvNoAddrs : CopyEnv :=
  { exEnv with addresses := fun _ => .ok [] }

/-! # Theorems -/

/-! ## Compression sniffer lemmas -/

theorem headerBytes_length (content : List Nat) : (headerBytes content).length = 263 := by
  unfold headerBytes
  simp only [List.length_append, List.length_take, List.length_replicate]
  omega

theorem headerBytes_ne_nil (content : List Nat) : headerBytes content ≠ [] := by
  intro hnil
  have h := headerBytes_length content
  rw [hnil] at h
  simp at h

theorem headerBytes_idem (content : List Nat) :
    headerBytes (headerBytes content) = headerBytes content := by
  have h := headerBytes_length content
  generalize hb : headerBytes content = l at h ⊢
  unfold headerBytes
  rw [h, List.take_of_length_le (le_of_eq h)]
  simp

theorem headerByte_headerBytes (content : List Nat) (i : Nat) :
    headerByte (headerBytes content) i = headerByte content i := by
  unfold headerByte
  rw [headerBytes_idem]

/-- C5 counterexample.  A file whose first six bytes are
`FD 37 7A 58 5A 01` — not the xz magic `FD 37 7A 58 5A 00` of the claim — is
still classified xz, because byte 5 is never examined; and a file whose
first byte is `F0`, outside the claimed `[0x00..0xE0]` range, is still
classified lzma. -/
theorem detectCompression_xz_lzma_cex :
    detectCompression [0xFD, 0x37, 0x7A, 0x58, 0x5A, 0x01] = .ok (["-Jxf"], ".tar.xz")
  ∧ headerByte [0xFD, 0x37, 0x7A, 0x58, 0x5A, 0x01] 5 = 0x01
  ∧ detectCompression [0xF0, 0x37, 0x7A, 0x58, 0x5A, 0x00] = .ok (["--lzma", "-xf"], ".tar.lzma")
  ∧ 0xE0 < 0xF0 := by
  refine ⟨by rfl, by rfl, by rfl, by decide⟩

/-- C5 amended.  For a non-empty file, `detectCompression` yields xz exactly
when header bytes 1..4 are `37 7A 58 5A` and byte 0 is `FD`; lzma exactly
when bytes 1..4 are `37 7A 58 5A` and byte 0 is anything other than `FD`
(byte 5 is not examined in either row); and UnsupportedCompression exactly
when none of the five magic tests of the code matches. -/
theorem detectCompression_xz_lzma_characterization (content : List Nat)
    (h : content ≠ []) :
    (detectCompression content = .ok (["-Jxf"], ".tar.xz") ↔
      sevenZXZMagic content ∧ headerByte content 0 = 0xFD)
  ∧ (detectCompression content = .ok (["--lzma", "-xf"], ".tar.lzma") ↔
      sevenZXZMagic content ∧ headerByte content 0 ≠ 0xFD)
  ∧ (detectCompression content = .error .unsupportedCompression ↔
      ¬ bz2Magic content ∧ ¬ gzMagic content ∧ ¬ sevenZXZMagic content ∧
      ¬ tarMagic content) := by
  unfold detectCompression
  rw [if_neg h]
  split_ifs with h1 h2 h3 h4 h5 <;>
    simp_all [bz2Magic, gzMagic, sevenZXZMagic, tarMagic] <;>
    omega

/-- Witness for `detectCompression_xz_lzma_characterization` at the header
`FD 37 7A 58 5A 01`. -/
theorem detectCompression_xz_lzma_characterization_witness :
    detectCompression [0xFD, 0x37, 0x7A, 0x58, 0x5A, 0x01] = .ok (["-Jxf"], ".tar.xz") :=
  (detectCompression_xz_lzma_characterization [0xFD, 0x37, 0x7A, 0x58, 0x5A, 0x01]
    (by decide)).1.mpr (by decide)

/-- C6 counterexample.  A 2-byte file `42 5A` — fewer than 263 bytes — is
classified bzip2 by both variants, not UnsupportedCompression. -/
theorem detectCompression_short_file_cex :
    [(0x42 : Nat), 0x5A].length < 263
  ∧ detectCompression [0x42, 0x5A] = .ok (["--jxf"], ".tar.bz2")
  ∧ Part000.detectCompression [0x42, 0x5A] = .ok (2, ".tar.bz2") := by
  refine ⟨by decide, by rfl, by rfl⟩

/-- C6 amended.  No minimum length is required for classification: a file is
always classified against the zero-padded 263-byte buffer
(`detectCompression content = detectCompression (headerBytes content)`).
In the `src/lxd/images.go` variant exactly the empty file fails, and with
the read error rather than UnsupportedCompression; the `part_000` variant
ignores the read error entirely and classifies even the empty file (its
all-zero header reaches the `default:` arm). -/
theorem detectCompression_no_length_check :
    (∀ content, detectCompression content = .error .readError ↔ content = [])
  ∧ (∀ content, content ≠ [] →
      detectCompression content = detectCompression (headerBytes content))
  ∧ (∀ content, Part000.detectCompression content ≠ .error .readError)
  ∧ Part000.detectCompression [] = .error .unsupportedCompression := by
  refine ⟨?_, ?_, ?_, by rfl⟩
  · intro content
    constructor
    · intro hc
      by_contra hne
      unfold detectCompression at hc
      rw [if_neg hne] at hc
      split_ifs at hc <;> simp_all
    · intro hc
      subst hc
      rfl
  · intro content hne
    have hb : ∀ i, headerByte (headerBytes content) i = headerByte content i :=
      headerByte_headerBytes content
    unfold detectCompression
    rw [if_neg hne, if_neg (headerBytes_ne_nil content)]
    simp only [bz2Magic, gzMagic, sevenZXZMagic, tarMagic, hb]
  · intro content hc
    unfold Part000.detectCompression at hc
    split_ifs at hc <;> simp_all

/-! ## Cascading delete and alias lookup -/

/-- C2.  `DELETE /images/{fp}` does NOT delete the property rows: the
statement `DELETE FROM images_properties WHERE image_id?` (source line 801,
sic — the `=` is missing) is a SQL syntax error whose result is discarded
(`_, _ = tx.Exec(...)`), so on a store holding image `f` (id 1) with one
property row, the delete succeeds, removes the image row, the alias row and
the files, and leaves the property row behind. -/
theorem imageDelete_leaves_property_rows :
    parseDeleteStmt imagesPropertiesDeleteStmt = none
  ∧ ∃ st, imageDelete ⟨false, "dir"⟩ exDeleteDB "f" = some st
      ∧ st.images = []
      ∧ st.imagesAliases = []
      ∧ st.files = []
      ∧ st.imagesProperties = [{ imageId := 1, rowType := 0, key := "os", value := "alpine" }] := by
  exact ⟨by rfl, _, by rfl, by rfl, by rfl, by rfl, by rfl⟩

theorem dbImageGet_mem {st : DBState} {fp : String} {publicOnly : Bool} {row : ImageRow}
    (h : dbImageGet st fp publicOnly = some row) :
    row ∈ st.images ∧ row.fingerprint = fp ∧ (publicOnly = true → row.publicFlag = 1) := by
  unfold dbImageGet at h
  have hmem := List.mem_of_find?_eq_some h
  have hpred := List.find?_some h
  simp only [Bool.and_eq_true, beq_iff_eq, Bool.or_eq_true] at hpred
  refine ⟨hmem, hpred.1, ?_⟩
  intro hp
  subst hp
  rcases hpred.2 with h2 | h2
  · simp at h2
  · exact h2

/-- C9.  Every alias entry returned by `doImageGet` (hence by `GET
/images/{fp}` and by the recursive image listing) has its description equal
to its name: the scan loop reads the first result column into both fields,
so the stored description column is never returned. -/
theorem doImageGet_alias_description_equals_name :
    (∀ st fp publicOnly info, doImageGet st fp publicOnly = some info →
       ∀ a ∈ info.aliases,
         a.description = a.name ∧ ∃ row ∈ st.imagesAliases, a.name = row.name)
  ∧ (∀ st publicOnly infos, doImagesGet st true publicOnly = .infos infos →
       ∀ info ∈ infos, ∀ a ∈ info.aliases, a.description = a.name) := by
  have main : ∀ st fp publicOnly info, doImageGet st fp publicOnly = some info →
      ∀ a ∈ info.aliases,
        a.description = a.name ∧ ∃ row ∈ st.imagesAliases, a.name = row.name := by
    intro st fp publicOnly info h
    unfold doImageGet at h
    cases hdb : dbImageGet st fp publicOnly with
    | none => rw [hdb] at h; cases h
    | some imgInfo =>
      rw [hdb] at h
      injection h with h
      subst h
      intro a ha
      simp only [List.mem_map, List.mem_filter] at ha
      obtain ⟨pr, ⟨row, hrow, hpr⟩, hpa⟩ := ha
      subst hpa
      subst hpr
      exact ⟨rfl, row, hrow.1, rfl⟩
  refine ⟨main, ?_⟩
  intro st publicOnly infos h info hinfo a ha
  unfold doImagesGet at h
  simp only [Bool.not_true, if_false] at h
  injection h with h
  subst h
  simp only [List.mem_filterMap] at hinfo
  obtain ⟨name, _, hget⟩ := hinfo
  exact (main st name publicOnly info hget a ha).1

/-- Witness for `doImageGet_alias_description_equals_name` on a store whose
alias row carries a distinct stored description. -/
theorem doImageGet_alias_description_equals_name_witness :
    ∀ a ∈ exAliasInfo.aliases,
      a.description = a.name ∧ ∃ row ∈ exAliasDB.imagesAliases, a.name = row.name :=
  doImageGet_alias_description_equals_name.1 exAliasDB "f" false exAliasInfo (by rfl)

/-! ## Property-merge lemmas -/

theorem getKey_cons (p : String × String) (m : List (String × String)) (k : String) :
    getKey (p :: m) k = if p.1 = k then some p.2 else getKey m k := by
  by_cases h : p.1 = k
  · rw [if_pos h]
    unfold getKey
    rw [List.find?_cons_of_pos _ (by simp [h])]
    rfl
  · rw [if_neg h]
    unfold getKey
    rw [List.find?_cons_of_neg _ (by simp [h])]

theorem getKey_setKey (m : List (String × String)) (k v k' : String) :
    getKey (setKey m k v) k' = if k' = k then some v else getKey m k' := by
  induction m with
  | nil =>
    show getKey [(k, v)] k' = _
    rw [getKey_cons]
    by_cases h : k' = k
    · rw [if_pos (show (k, v).1 = k' from h.symm), if_pos h]
    · rw [if_neg (show ¬ (k, v).1 = k' from fun hh => h hh.symm), if_neg h]
  | cons p rest ih =>
    show getKey (if p.1 == k then (k, v) :: rest else p :: setKey rest k v) k' = _
    by_cases hpk : p.1 = k
    · rw [if_pos (by simp [hpk]), getKey_cons]
      by_cases h : k' = k
      · rw [if_pos (show (k, v).1 = k' from h.symm), if_pos h]
      · rw [if_neg (show ¬ (k, v).1 = k' from fun hh => h hh.symm), if_neg h, getKey_cons,
          if_neg (show ¬ p.1 = k' from fun hh => h ((hpk.symm.trans hh).symm))]
    · rw [if_neg (by simp [hpk]), getKey_cons, ih]
      by_cases h : k' = k
      · subst h
        rw [if_neg hpk, if_pos rfl, if_pos rfl]
      · rw [if_neg h, if_neg h, getKey_cons]

theorem getKey_foldl_setKey (f : String → String) (k : String) (L : List (String × String)) :
    ∀ props : List (String × String),
      getKey (L.foldl (fun acc p => setKey acc p.1 (f p.1)) props) k =
        if k ∈ L.map (fun p => p.1) then some (f k) else getKey props k := by
  induction L with
  | nil => intro props; simp
  | cons p L ih =>
    intro props
    rw [List.foldl_cons, ih]
    by_cases hk : k ∈ L.map (fun p => p.1)
    · simp [hk]
    · by_cases hpk : k = p.1
      · simp [hk, hpk, getKey_setKey]
      · simp [hk, hpk, getKey_setKey, fun hh : p.1 = k => hpk hh.symm]

theorem getKey_applyPropHeader (props : List (String × String)) (ph k : String) :
    getKey (applyPropHeader props ph) k =
      if k ∈ (parseQueryPairs ph).map (fun p => p.1) then
        some (((queryValuesFor ph k).head?).getD "")
      else getKey props k :=
  getKey_foldl_setKey (fun key => ((queryValuesFor ph key).head?).getD "") k
    (parseQueryPairs ph) props

theorem headerHasKey_iff (ph k : String) :
    headerHasKey ph k = true ↔ k ∈ (parseQueryPairs ph).map (fun p => p.1) := by
  simp only [headerHasKey, List.any_eq_true, List.mem_map, beq_iff_eq]

theorem queryValuesFor_ne_nil {ph k : String}
    (h : k ∈ (parseQueryPairs ph).map (fun p => p.1)) :
    queryValuesFor ph k ≠ [] := by
  simp only [List.mem_map] at h
  obtain ⟨p, hp, hpk⟩ := h
  intro hnil
  unfold queryValuesFor at hnil
  rw [List.map_eq_nil_iff] at hnil
  have : p ∈ (parseQueryPairs ph).filter (fun p => p.1 == k) := by
    rw [List.mem_filter]
    exact ⟨hp, by simp [hpk]⟩
  rw [hnil] at this
  cases this

theorem some_head_getD {l : List String} (h : l ≠ []) :
    some ((l.head?).getD "") = l.head? := by
  cases l with
  | nil => exact absurd rfl h
  | cons x xs => rfl

/-- C4 counterexample.  In the single header line `os=alpine&os=debian`, the
key `os` appears twice with ordered values `[alpine, debian]`; the merge
stores the FIRST value `alpine`, not the last value `debian` that the claim
requires. -/
theorem propHeaders_last_wins_cex :
    queryValuesFor "os=alpine&os=debian" "os" = ["alpine", "debian"]
  ∧ getKey (applyPropHeaders [] ["os=alpine&os=debian"]) "os" = some "alpine"
  ∧ (some "alpine" : Option String) ≠ some "debian" := by
  refine ⟨by rfl, by rfl, by decide⟩

/-- C4 amended.  The merged value of a key is determined by the LAST header
line that mentions the key, and within that line by the FIRST value listed
for it (`url.ParseQuery` keeps all duplicate values in order and the loop
stores `pval[0]`); keys mentioned by no header line keep their
metadata.yaml value. -/
theorem propHeaders_first_value_wins :
    ∀ (props : List (String × String)) (headers : List String) (k : String),
      getKey (applyPropHeaders props headers) k =
        match headers.reverse.find? (fun ph => headerHasKey ph k) with
        | some ph => (queryValuesFor ph k).head?
        | none => getKey props k := by
  intro props headers k
  induction headers generalizing props with
  | nil => rfl
  | cons ph rest ih =>
    show getKey (applyPropHeaders (applyPropHeader props ph) rest) k = _
    rw [ih]
    have hrev : (ph :: rest).reverse = rest.reverse ++ [ph] := by simp
    rw [hrev, List.find?_append]
    cases hfind : rest.reverse.find? (fun ph => headerHasKey ph k) with
    | some ph' => simp [Option.or]
    | none =>
      simp only [Option.or, List.find?_singleton]
      by_cases hhas : headerHasKey ph k = true
      · rw [if_pos hhas]
        rw [getKey_applyPropHeader,
          if_pos ((headerHasKey_iff ph k).mp hhas)]
        exact some_head_getD (queryValuesFor_ne_nil ((headerHasKey_iff ph k).mp hhas))
      · rw [if_neg hhas]
        rw [getKey_applyPropHeader,
          if_neg (fun hmem => hhas ((headerHasKey_iff ph k).mpr hmem))]

/-! ## Visibility lemmas -/

theorem doImageGet_fingerprint {st : DBState} {fp : String} {publicOnly : Bool}
    {info : ImageInfo} (h : doImageGet st fp publicOnly = some info) :
    ∃ row, dbImageGet st fp publicOnly = some row ∧ info.fingerprint = row.fingerprint := by
  unfold doImageGet at h
  cases hdb : dbImageGet st fp publicOnly with
  | none => rw [hdb] at h; cases h
  | some imgInfo =>
    rw [hdb] at h
    injection h with h
    subst h
    exact ⟨imgInfo, rfl, rfl⟩

/-- C3.  Untrusted visibility: the untrusted list (both forms) only exposes
fingerprints of rows with `public=1`; an untrusted fetch or export succeeds
only for an image whose row has `public=1`, unless `imageValidSecret`
accepts the presented secret for the requested fingerprint; and when it
does, the untrusted request is answered exactly as a trusted one. -/
theorem images_untrusted_visibility :
    (∀ st recursion fps, doImagesGet st recursion true = .urls fps →
        ∀ u ∈ fps, ∃ row ∈ st.images,
          row.publicFlag = 1 ∧ u = "/1.0/images/" ++ row.fingerprint)
  ∧ (∀ st infos, doImagesGet st true true = .infos infos →
        ∀ info ∈ infos, ∃ row ∈ st.images,
          row.publicFlag = 1 ∧ info.fingerprint = row.fingerprint)
  ∧ (∀ st ops fp secret info, imageGet st ops false fp secret = some info →
        (∃ row ∈ st.images, row.fingerprint = fp ∧ row.publicFlag = 1)
        ∨ imageValidSecret ops fp secret = true)
  ∧ (∀ st ops fp secret files, imageExport st ops false fp secret = some files →
        (∃ row ∈ st.images, row.fingerprint = fp ∧ row.publicFlag = 1)
        ∨ imageValidSecret ops fp secret = true)
  ∧ (∀ st ops fp secret, imageValidSecret ops fp secret = true →
        imageGet st ops false fp secret = imageGet st ops true fp secret
        ∧ imageExport st ops false fp secret = imageExport st ops true fp secret) := by
  refine ⟨?_, ?_, ?_, ?_, ?_⟩
  · intro st recursion fps h u hu
    unfold doImagesGet at h
    cases recursion with
    | true => simp at h
    | false =>
      simp only [Bool.not_false, if_true] at h
      injection h with h
      subst h
      simp only [List.mem_map, List.mem_filter] at hu
      obtain ⟨fp, ⟨row, hrow, hfp⟩, hu⟩ := hu
      exact ⟨row, hrow.1, by simpa using hrow.2, by rw [← hu, ← hfp]⟩
  · intro st infos h info hinfo
    unfold doImagesGet at h
    simp only [Bool.not_true, if_false] at h
    injection h with h
    subst h
    simp only [List.mem_filterMap] at hinfo
    obtain ⟨name, _, hget⟩ := hinfo
    obtain ⟨row, hdb, hfp⟩ := doImageGet_fingerprint hget
    obtain ⟨hmem, _, hpub⟩ := dbImageGet_mem hdb
    exact ⟨row, hmem, hpub rfl, hfp⟩
  · intro st ops fp secret info h
    cases hvs : imageValidSecret ops fp secret with
    | true => exact Or.inr rfl
    | false =>
      unfold imageGet at h
      rw [hvs] at h
      simp only [Bool.not_false, Bool.and_false, Bool.false_eq_true, if_false] at h
      obtain ⟨row, hdb, _⟩ := doImageGet_fingerprint h
      obtain ⟨hmem, hfp, hpub⟩ := dbImageGet_mem hdb
      exact Or.inl ⟨row, hmem, hfp, hpub rfl⟩
  · intro st ops fp secret files h
    cases hvs : imageValidSecret ops fp secret with
    | true => exact Or.inr rfl
    | false =>
      unfold imageExport at h
      rw [hvs] at h
      simp only [Bool.not_false, Bool.and_false, Bool.false_eq_true, if_false] at h
      cases hdb : dbImageGet st fp true with
      | none => rw [hdb] at h; cases h
      | some row =>
        obtain ⟨hmem, hfp, hpub⟩ := dbImageGet_mem hdb
        exact Or.inl ⟨row, hmem, hfp, hpub rfl⟩
  · intro st ops fp secret hvs
    constructor
    · unfold imageGet
      rw [hvs]
      simp
    · unfold imageExport
      rw [hvs]
      simp

/-- Witness for `images_untrusted_visibility`: an untrusted fetch that
succeeds on a concrete store with no live operation. -/
theorem images_untrusted_visibility_witness :
    (∃ row ∈ exVisDB.images, row.fingerprint = "f" ∧ row.publicFlag = 1)
    ∨ imageValidSecret [] "f" "x" = true :=
  images_untrusted_visibility.2.2.1 exVisDB [] "f" "x" exVisInfo (by rfl)

/-! ## Ingestion ordering -/

/-- C1 counterexample.  On a btrfs daemon, ingesting a fingerprint that is
already in the store through the pipeline variant (`buildImageFromInfo`)
fails — but only at the DB insert, AFTER the btrfs subvolume sidecar work
has been performed, contradicting the claim that no subvolume or LV work is
done for a duplicate. -/
theorem buildImageFromInfo_duplicate_builds_sidecar_cex :
    (∃ e, (buildImageFromInfo ⟨false, "btrfs"⟩ ["f"] "f" 1).1 = .error e)
  ∧ IngestEvent.btrfsSubvolEv "f" ∈ (buildImageFromInfo ⟨false, "btrfs"⟩ ["f"] "f" 1).2 := by
  exact ⟨⟨"UNIQUE constraint failed: images.fingerprint", by rfl⟩, by decide⟩

/-- C1 amended.  In the inline variant (`part_000` `imagesPost`) the
already-present check is indeed performed after the `X-LXD-fingerprint`
validation and before any storage-backend work: a duplicate fails
`Image already exists.` with an empty effect trace, and a fingerprint
mismatch wins over the duplicate check.  In the pipeline variant
(`buildImageFromInfo`) there is no early check at all: the backend sidecar
is built first and the duplicate is only detected by the DB insert. -/
theorem imagesPost_duplicate_check_ordering :
    (∀ cfg files store fp exp size, files.contains ("images/" ++ fp) = true →
        (exp = "" ∨ exp = fp) →
        Part000.imagesPostCore cfg files store fp exp size =
          (.error "Image already exists.", []))
  ∧ (∀ cfg files store fp exp size, exp ≠ "" → fp ≠ exp →
        Part000.imagesPostCore cfg files store fp exp size =
          (.error "fingerprints do not match", []))
  ∧ (∀ cfg store fp size, store.contains fp = true →
        (∃ e, (buildImageFromInfo cfg store fp size).1 = .error e)
        ∧ (buildImageFromInfo cfg store fp size).2 =
            buildOtherFs cfg fp ++ [.dbInsertEv fp]) := by
  refine ⟨?_, ?_, ?_⟩
  · intro cfg files store fp exp size hdup hexp
    unfold Part000.imagesPostCore
    have hnot : ¬ (exp ≠ "" ∧ fp ≠ exp) := by
      rcases hexp with h | h
      · exact fun hc => hc.1 h
      · exact fun hc => hc.2 h.symm
    rw [if_neg hnot, if_pos hdup]
  · intro cfg files store fp exp size hne hfp
    unfold Part000.imagesPostCore
    rw [if_pos ⟨hne, hfp⟩]
  · intro cfg store fp size hdup
    unfold buildImageFromInfo dbInsertImage
    rw [if_pos hdup]
    exact ⟨⟨"UNIQUE constraint failed: images.fingerprint", rfl⟩, rfl⟩

/-- Witness for `imagesPost_duplicate_check_ordering`: the inline variant
rejects a duplicate with no backend work on a btrfs daemon. -/
theorem imagesPost_duplicate_check_ordering_witness :
    Part000.imagesPostCore ⟨false, "btrfs"⟩ ["images/f"] [] "f" "" 1 =
      (.error "Image already exists.", []) :=
  imagesPost_duplicate_check_ordering.1 ⟨false, "btrfs"⟩ ["images/f"] [] "f" "" 1
    (by rfl) (Or.inl rfl)

/-! ## Copy coordinator: same-remote rejection -/

/-- C7.  When the parsed source and destination remotes are equal and the
(defaulted) destination name equals the source name, `copyContainer` fails
with the IllegalCopy diagnostic, and the only call it may have issued is
the read of the source container status on that same remote: no
local-copy, no migration-source websocket, no migrate-from request, no
second daemon is contacted. -/
theorem copyContainer_same_remote_same_name_illegal
    (env : CopyEnv) (remote name destName0 : String) (keepVolatile : Bool)
    (hname : name ≠ "")
    (hdst : (if destName0 = "" then name else destName0) = name)
    (hstatus : isSnapshot name = true ∨ ∃ st, env.containerStatus remote name = .ok st) :
    (copyContainer env remote name remote destName0 keepVolatile).1 =
      .error "cannot copy to the same container name"
  ∧ ∀ e ∈ (copyContainer env remote name remote destName0 keepVolatile).2,
      e = CopyEvent.containerStatusEv remote name := by
  unfold copyContainer
  by_cases hsnap : isSnapshot name = true
  · simp only [if_neg hname, hdst, hsnap, if_true]
    unfold copySameRemote
    rw [if_pos rfl]
    exact ⟨rfl, by simp⟩
  · rcases hstatus with h | ⟨st, hst⟩
    · exact absurd h hsnap
    · simp only [if_neg hname, hdst, hsnap, if_false, Bool.false_eq_true, hst, if_true]
      unfold copySameRemote
      rw [if_pos rfl]
      refine ⟨rfl, ?_⟩
      intro e he
      simp only [List.mem_cons, List.not_mem_nil, or_false] at he
      exact he

/-! ## Copy coordinator: cross-remote reduction -/

theorem copyContainer_cross_reduce
    (env : CopyEnv) (sourceRemote sourceName destRemote destName0 destName : String)
    (keepVolatile : Bool) (st0 : ContainerState) (destProfs : List String)
    (ws : WSResponse) (secrets : List (String × String)) (addrs : List String)
    (hname : sourceName ≠ "")
    (hdst : (if destName0 = "" then sourceName else destName0) = destName)
    (hremote : ¬ sourceRemote = destRemote)
    (hsnap : isSnapshot sourceName = false)
    (hstatus : env.containerStatus sourceRemote sourceName = .ok st0)
    (hprof : env.listProfiles destRemote = .ok destProfs)
    (hsub : (strippedState keepVolatile st0).profiles.all
      (fun p => destProfs.contains p) = true)
    (hws : env.getMigrationSourceWS sourceRemote sourceName = .ok ws)
    (hsec : ws.metadataSecrets = some secrets)
    (haddr : env.addresses sourceRemote = .ok addrs) :
    copyContainer env sourceRemote sourceName destRemote destName0 keepVolatile =
      ((tryAddresses env destRemote destName ws.operation secrets
          (strippedState keepVolatile st0).config (strippedState keepVolatile st0).profiles
          (baseImageOf st0.config) addrs none).1,
        CopyEvent.containerStatusEv sourceRemote sourceName ::
        ([.listProfilesEv destRemote, .getMigrationSourceWSEv sourceRemote sourceName,
          .addressesEv sourceRemote] ++
          (tryAddresses env destRemote destName ws.operation secrets
            (strippedState keepVolatile st0).config (strippedState keepVolatile st0).profiles
            (baseImageOf st0.config) addrs none).2)) := by
  unfold copyContainer
  simp only [if_neg hname, hdst, hsnap, Bool.false_eq_true, if_false, hstatus]
  rw [if_neg hremote]
  unfold copyCrossRemote
  rw [hprof]
  simp only [hsub, Bool.not_true, Bool.false_eq_true, if_false, hws, hsec, haddr]

/-- C10.  In a cross-remote copy whose source daemon advertises an EMPTY
address list, `copyContainer` returns success (`err` is still nil when the
loop body never runs and `return err` returns it), despite never issuing a
migrate-from request: nothing is created on the destination, which was only
asked for its profile list. -/
theorem copyContainer_empty_addresses_success
    (env : CopyEnv) (sourceRemote sourceName destRemote destName0 destName : String)
    (keepVolatile : Bool) (st0 : ContainerState) (destProfs : List String)
    (ws : WSResponse) (secrets : List (String × String))
    (hname : sourceName ≠ "")
    (hdst : (if destName0 = "" then sourceName else destName0) = destName)
    (hremote : ¬ sourceRemote = destRemote)
    (hsnap : isSnapshot sourceName = false)
    (hstatus : env.containerStatus sourceRemote sourceName = .ok st0)
    (hprof : env.listProfiles destRemote = .ok destProfs)
    (hsub : (strippedState keepVolatile st0).profiles.all
      (fun p => destProfs.contains p) = true)
    (hws : env.getMigrationSourceWS sourceRemote sourceName = .ok ws)
    (hsec : ws.metadataSecrets = some secrets)
    (haddr : env.addresses sourceRemote = .ok []) :
    (copyContainer env sourceRemote sourceName destRemote destName0 keepVolatile).1 = .ok ()
  ∧ (copyContainer env sourceRemote sourceName destRemote destName0 keepVolatile).2 =
      [.containerStatusEv sourceRemote sourceName, .listProfilesEv destRemote,
       .getMigrationSourceWSEv sourceRemote sourceName, .addressesEv sourceRemote] := by
  rw [copyContainer_cross_reduce env sourceRemote sourceName destRemote destName0 destName
    keepVolatile st0 destProfs ws secrets [] hname hdst hremote hsnap hstatus hprof hsub
    hws hsec haddr]
  exact ⟨rfl, rfl⟩

/-- Witness for `copyContainer_empty_addresses_success` on a concrete
environment advertising no addresses. -/
theorem copyContainer_empty_addresses_success_witness :
    (copyContainer exEnvNoAddrs "a" "c1" "b" "" false).1 = .ok () :=
  (copyContainer_empty_addresses_success exEnvNoAddrs "a" "c1" "b" "" "c1" false exStatus
    ["default", "extra"] exWS [("control", "s1")]
    (by decide) (by decide) (by decide) (by rfl) (by rfl) (by rfl) (by rfl) (by rfl)
    (by rfl) (by rfl)).1

/-! ## Copy coordinator: the address loop -/

theorem tryAddresses_all_fail
    (env : CopyEnv) (destRemote destName operation : String)
    (secrets config : List (String × String)) (profiles : List String) (baseImage : String) :
    ∀ (pre : List String) (a : String) (e : String),
      (∀ b ∈ pre, ∃ e2, migrateAttempt env destRemote destName operation secrets config
          profiles baseImage b = .error e2) →
      migrateAttempt env destRemote destName operation secrets config profiles baseImage a
        = .error e →
      ∀ le,
        (tryAddresses env destRemote destName operation secrets config profiles baseImage
          (pre ++ [a]) le).1 = .error e
      ∧ migrateAddrs (tryAddresses env destRemote destName operation secrets config profiles
          baseImage (pre ++ [a]) le).2 = pre ++ [a] := by
  intro pre
  induction pre with
  | nil =>
    intro a e hpre ha le
    simp only [List.nil_append]
    cases hm : env.migrateFrom destRemote destName (wssUrl a operation) secrets config
        profiles baseImage with
    | error e1 =>
      unfold migrateAttempt at ha
      rw [hm] at ha
      injection ha with ha
      subst ha
      simp [tryAddresses, hm, migrateAddrs]
    | ok op =>
      unfold migrateAttempt at ha
      rw [hm] at ha
      dsimp only at ha
      simp [tryAddresses, hm, ha, migrateAddrs]
  | cons b pre ih =>
    intro a e hpre ha le
    obtain ⟨e2, hb⟩ := hpre b (List.mem_cons_self b pre)
    have hpre' : ∀ c ∈ pre, ∃ e2, migrateAttempt env destRemote destName operation secrets
        config profiles baseImage c = .error e2 :=
      fun c hc => hpre c (List.mem_cons_of_mem b hc)
    cases hm : env.migrateFrom destRemote destName (wssUrl b operation) secrets config
        profiles baseImage with
    | error e1 =>
      have h := ih a e hpre' ha (some e1)
      simp [tryAddresses, hm, migrateAddrs, h.1, h.2, List.cons_append]
    | ok op =>
      unfold migrateAttempt at hb
      rw [hm] at hb
      dsimp only at hb
      cases hw : env.waitForSuccess destRemote op with
      | ok u => rw [hw] at hb; cases hb
      | error e3 =>
        have h := ih a e hpre' ha (some e3)
        simp [tryAddresses, hm, hw, migrateAddrs, h.1, h.2, List.cons_append]

theorem tryAddresses_success
    (env : CopyEnv) (destRemote destName operation : String)
    (secrets config : List (String × String)) (profiles : List String) (baseImage : String) :
    ∀ (pre : List String) (a : String) (rest : List String),
      (∀ b ∈ pre, ∃ e2, migrateAttempt env destRemote destName operation secrets config
          profiles baseImage b = .error e2) →
      migrateAttempt env destRemote destName operation secrets config profiles baseImage a
        = .ok () →
      ∀ le,
        (tryAddresses env destRemote destName operation secrets config profiles baseImage
          (pre ++ a :: rest) le).1 = .ok ()
      ∧ migrateAddrs (tryAddresses env destRemote destName operation secrets config profiles
          baseImage (pre ++ a :: rest) le).2 = pre ++ [a] := by
  intro pre
  induction pre with
  | nil =>
    intro a rest hpre ha le
    simp only [List.nil_append]
    cases hm : env.migrateFrom destRemote destName (wssUrl a operation) secrets config
        profiles baseImage with
    | error e1 =>
      unfold migrateAttempt at ha
      rw [hm] at ha
      cases ha
    | ok op =>
      unfold migrateAttempt at ha
      rw [hm] at ha
      dsimp only at ha
      simp [tryAddresses, hm, ha, migrateAddrs]
  | cons b pre ih =>
    intro a rest hpre ha le
    obtain ⟨e2, hb⟩ := hpre b (List.mem_cons_self b pre)
    have hpre' : ∀ c ∈ pre, ∃ e2, migrateAttempt env destRemote destName operation secrets
        config profiles baseImage c = .error e2 :=
      fun c hc => hpre c (List.mem_cons_of_mem b hc)
    cases hm : env.migrateFrom destRemote destName (wssUrl b operation) secrets config
        profiles baseImage with
    | error e1 =>
      have h := ih a rest hpre' ha (some e1)
      simp [tryAddresses, hm, migrateAddrs, h.1, h.2, List.cons_append]
    | ok op =>
      unfold migrateAttempt at hb
      rw [hm] at hb
      dsimp only at hb
      cases hw : env.waitForSuccess destRemote op with
      | ok u => rw [hw] at hb; cases hb
      | error e3 =>
        have h := ih a rest hpre' ha (some e3)
        simp [tryAddresses, hm, hw, migrateAddrs, h.1, h.2, List.cons_append]

/-- C8.  In a cross-remote copy, once the profile-subset check has passed
(and the websocket, secrets and address enumeration succeeded), the
coordinator attempts the advertised addresses in list order — each attempt
being a migrate-from request plus an operation wait: if every address
before some address `a` fails (at either step) and `a` succeeds, the whole
copy succeeds, having attempted exactly the addresses up to and including
`a`; if every address fails, the copy returns the error of the LAST
address's attempt, having attempted every address. -/
theorem copyContainer_cross_remote_address_iteration
    (env : CopyEnv) (sourceRemote sourceName destRemote destName0 destName : String)
    (keepVolatile : Bool) (st0 : ContainerState) (destProfs : List String)
    (ws : WSResponse) (secrets : List (String × String)) (addrs : List String)
    (hname : sourceName ≠ "")
    (hdst : (if destName0 = "" then sourceName else destName0) = destName)
    (hremote : ¬ sourceRemote = destRemote)
    (hsnap : isSnapshot sourceName = false)
    (hstatus : env.containerStatus sourceRemote sourceName = .ok st0)
    (hprof : env.listProfiles destRemote = .ok destProfs)
    (hsub : (strippedState keepVolatile st0).profiles.all
      (fun p => destProfs.contains p) = true)
    (hws : env.getMigrationSourceWS sourceRemote sourceName = .ok ws)
    (hsec : ws.metadataSecrets = some secrets)
    (haddr : env.addresses sourceRemote = .ok addrs) :
    (∀ pre a rest, addrs = pre ++ a :: rest →
       (∀ b ∈ pre, ∃ e2, migrateAttempt env destRemote destName ws.operation secrets
          (strippedState keepVolatile st0).config (strippedState keepVolatile st0).profiles
          (baseImageOf st0.config) b = .error e2) →
       migrateAttempt env destRemote destName ws.operation secrets
          (strippedState keepVolatile st0).config (strippedState keepVolatile st0).profiles
          (baseImageOf st0.config) a = .ok () →
       (copyContainer env sourceRemote sourceName destRemote destName0 keepVolatile).1 = .ok ()
       ∧ migrateAddrs
           (copyContainer env sourceRemote sourceName destRemote destName0 keepVolatile).2
           = pre ++ [a])
  ∧ (∀ pre a e, addrs = pre ++ [a] →
       (∀ b ∈ pre, ∃ e2, migrateAttempt env destRemote destName ws.operation secrets
          (strippedState keepVolatile st0).config (strippedState keepVolatile st0).profiles
          (baseImageOf st0.config) b = .error e2) →
       migrateAttempt env destRemote destName ws.operation secrets
          (strippedState keepVolatile st0).config (strippedState keepVolatile st0).profiles
          (baseImageOf st0.config) a = .error e →
       (copyContainer env sourceRemote sourceName destRemote destName0 keepVolatile).1 =
         .error e
       ∧ migrateAddrs
           (copyContainer env sourceRemote sourceName destRemote destName0 keepVolatile).2
           = pre ++ [a]) := by
  have hred := copyContainer_cross_reduce env sourceRemote sourceName destRemote destName0
    destName keepVolatile st0 destProfs ws secrets addrs hname hdst hremote hsnap hstatus
    hprof hsub hws hsec haddr
  constructor
  · intro pre a rest haddrs hpre ha
    have h := tryAddresses_success env destRemote destName ws.operation secrets
      (strippedState keepVolatile st0).config (strippedState keepVolatile st0).profiles
      (baseImageOf st0.config) pre a rest hpre ha none
    rw [haddrs] at hred
    rw [hred]
    exact ⟨h.1, by simp [migrateAddrs, h.2]⟩
  · intro pre a e haddrs hpre ha
    have h := tryAddresses_all_fail env destRemote destName ws.operation secrets
      (strippedState keepVolatile st0).config (strippedState keepVolatile st0).profiles
      (baseImageOf st0.config) pre a e hpre ha none
    rw [haddrs] at hred
    rw [hred]
    exact ⟨h.1, by simp [migrateAddrs, h.2]⟩

/-- Witness for `detectCompression_no_length_check` at the 2-byte file. -/
theorem detectCompression_no_length_check_witness :
    detectCompression [0x42, 0x5A] = detectCompression (headerBytes [0x42, 0x5A]) :=
  detectCompression_no_length_check.2.1 [0x42, 0x5A] (by decide)

/-- Witness for `copyContainer_same_remote_same_name_illegal`:
`copy local:c1 local:c1`. -/
theorem copyContainer_same_remote_same_name_illegal_witness :
    (copyContainer exEnv "local" "c1" "local" "c1" false).1 =
      .error "cannot copy to the same container name" :=
  (copyContainer_same_remote_same_name_illegal exEnv "local" "c1" "c1" false
    (by decide) (by decide) (Or.inr ⟨exStatus, rfl⟩)).1

/-- Witness for `copyContainer_cross_remote_address_iteration`: the first
advertised address fails to connect, the second succeeds. -/
theorem copyContainer_cross_remote_address_iteration_witness :
    (copyContainer exEnv "a" "c1" "b" "" false).1 = .ok ()
  ∧ migrateAddrs (copyContainer exEnv "a" "c1" "b" "" false).2 =
      ["10.0.0.1"] ++ ["10.0.0.2"] :=
  (copyContainer_cross_remote_address_iteration exEnv "a" "c1" "b" "" "c1" false exStatus
      ["default", "extra"] exWS [("control", "s1")] ["10.0.0.1", "10.0.0.2"]
      (by decide) (by decide) (by decide) (by decide) (by rfl) (by rfl) (by rfl) (by rfl)
      (by rfl) (by rfl)).1
    ["10.0.0.1"] "10.0.0.2" [] (by rfl)
    (fun b hb => by
      have hb' := List.mem_singleton.mp hb
      subst hb'
      exact ⟨"connect failed", by rfl⟩)
    (by rfl)
